import Mathlib

/-!
Verification of the plaincast YouTube receiver against its specification.

This file gives a shallow embedding, in Lean 4, of the parts of the Go
source that the checked claims are about:

* `apps/youtube/rid.go` — the outbound request-id counter (`RandomID`);
* `apps/youtube/youtube.go` — inbound sequencing (`handleRawReceivedMessage`),
  the outbound batching sender (`sendMessages`), the facade message builders
  (`playerEvents`) and the `setPlaylist` command parser (`run`);
* `apps/youtube/mp/player.go` — the playback controller (`run`'s backend event
  handling, `updatePlaylist`, `setPlaylistIndex`, `setPlayState`, `GetPosition`);
* `apps/youtube/mp/youtube.go` — the stream resolver (`getStream`,
  `getExpiresFromURL`, `WillExpire`, `GetURL`).

Go `int`/`int64` values are modelled as `Int` (with an explicit 32-bit
wrap where the source narrows to `int32`), `time.Duration` as `Int`
nanoseconds, `time.Time` as `Int` unix seconds (`Option Int` where the
zero time is significant), and Go panics / `log.Fatal` aborts as `none`
of an `Option` result.
-/

namespace Plaincast

/-! ## RandomID (apps/youtube/rid.go)

`rand.Intn 80000` is modelled by an arbitrary draw `n` with `0 ≤ n < 80000`;
the mutex is irrelevant to the sequential behaviour modelled here. -/

/-- The rid counter state (rid.go: `type RandomID struct`). -/
structure RandomID where
  number : Int
deriving DecidableEq, Repr

/-- rid.go `Restart`: `rid.number = rand.Intn(80000) + 10000`, with the
random draw passed in as `n`. -/
def RandomID.Restart (n : Int) : RandomID :=
  ⟨n + 10000⟩

/-- rid.go `Next`: `rid.number++; return rid.number`.  Returns the new
counter state together with the returned id. -/
def RandomID.Next (rid : RandomID) : RandomID × Int :=
  (⟨rid.number + 1⟩, rid.number + 1)

/-- The ids returned by `k` successive calls to `Next`. -/
def RandomID.nextIds (rid : RandomID) : Nat → List Int
  | 0 => []
  | k + 1 =>
    let r := rid.Next
    r.2 :: r.1.nextIds k

/-! ## Inbound sequencing (apps/youtube/youtube.go, handleRawReceivedMessage)

`yt.aid` is declared `int32` in the source; assigning `yt.aid =
int32(message.index)` narrows the Go `int` index to 32 bits, and
`int(yt.aid + 1)` increments in 32-bit arithmetic.  Both are modelled by
`wrap32`. -/

/-- Go conversion `int32(x)` of a (64-bit) integer: reduce modulo `2^32`
into `[-2^31, 2^31)`. -/
def wrap32 (x : Int) : Int :=
  (x + 2 ^ 31) % 2 ^ 32 - 2 ^ 31

/-- youtube.go:687-699, the sequencing part of `handleRawReceivedMessage`:
given the current `aid` and the frame's `message.index`, return `none` when
the frame is skipped as an old command (aid unchanged) and `some newAid`
when it is applied (`yt.aid = int32(message.index)`). -/
def handleAid (aid index : Int) : Option Int :=
  if index ≠ wrap32 (aid + 1) ∧ index ≤ aid then
    none
  else
    some (wrap32 index)

/-- The aid after handling a whole sequence of received frame indices,
where a skipped frame leaves aid unchanged. -/
def foldAid (aid : Int) (indices : List Int) : Int :=
  indices.foldl (fun a i => (handleAid a i).getD a) aid

/-! ## Playback controller (apps/youtube/mp/player.go, apps/youtube/mp/mp.go) -/

/-- Player states (mp.go): `STATE_STOPPED=0, STATE_PLAYING=1, STATE_PAUSED=2,
STATE_BUFFERING=3, STATE_SEEKING=4`. -/
inductive State where
  | stopped
  | playing
  | paused
  | buffering
  | seeking
deriving DecidableEq, Repr

/-- The integer code of a state, as used on the wire. -/
def State.code : State → Nat
  | .stopped => 0
  | .playing => 1
  | .paused => 2
  | .buffering => 3
  | .seeking => 4

/-- The fields of mp.go's `PlayState` that the modelled controller code
reads or writes.  Positions are `time.Duration` nanoseconds. -/
structure PlayState where
  Playlist : List String
  Index : Int
  State : State
  bufferingPosition : Int
  Volume : Int
deriving DecidableEq, Repr

/-- Go list indexing `l[i]` over a playlist: `none` models the runtime
panic on an out-of-range index. -/
def listIndex (l : List String) (i : Int) : Option String :=
  if 0 ≤ i then l.get? i.toNat else none

/-- The result of one controller step: the updated play state, the
`StateChange` (state, position) sent on the state-change channel if any,
and the `(videoId, position)` handed to the resolver + backend `play`
if playback of a track was started. -/
structure StepResult where
  ps : PlayState
  emitted : Option (State × Int)
  playRequest : Option (String × Int)
deriving DecidableEq, Repr

/-- player.go:152-171 `setPlayState`: set the state, set
`bufferingPosition` to the position when buffering and to `-1`
otherwise, and emit a `StateChange` carrying the given position (a `-1`
position would be replaced by `GetPosition` in the emitting goroutine;
the modelled call sites pass explicit positions). -/
def setPlayState (ps : PlayState) (state : State) (position : Int) :
    PlayState × (State × Int) :=
  ({ ps with
      State := state
      bufferingPosition := if state = State.buffering then position else -1 },
   (state, position))

/-- player.go:108-118 `startPlaying`: enter BUFFERING at `position`, then
resolve `ps.Playlist[ps.Index]` and play it from `position`.  `none`
models the index-out-of-range panic. -/
def startPlaying (ps : PlayState) (position : Int) : Option StepResult :=
  let r := setPlayState ps State.buffering position
  match listIndex r.1.Playlist r.1.Index with
  | none => none
  | some videoId => some ⟨r.1, some r.2, some (videoId, position)⟩

/-- player.go:282-339 `run`, restricted to a `STATE_STOPPED` event from the
backend: the event is dropped when it equals the current state (line 301)
or when the state is BUFFERING (lines 321-326); otherwise the controller
auto-advances when `ps.Index+1 < len(ps.Playlist)` and settles to STOPPED
at position 0 otherwise (lines 327-335). -/
def handleStoppedEvent (ps : PlayState) : Option StepResult :=
  if State.stopped = ps.State then some ⟨ps, none, none⟩
  else if ps.State = State.buffering then some ⟨ps, none, none⟩
  else if ps.Index + 1 < (ps.Playlist.length : Int) then
    startPlaying { ps with Index := ps.Index + 1 } 0
  else
    let r := setPlayState ps State.stopped 0
    some ⟨r.1, some r.2, none⟩

/-- player.go:211-230 `setPlaylistIndex`'s search loop: the index of the
first occurrence of `videoId` in the playlist (a second occurrence only
triggers a warning), or `none` — the source then panics with "current
video does not exist in new playlist". -/
def setPlaylistIndex (playlist : List String) (videoId : String) : Option Nat :=
  match playlist with
  | [] => none
  | v :: rest =>
    if v = videoId then some 0
    else (setPlaylistIndex rest videoId).map (· + 1)

/-- player.go:179-202 `updatePlaylist`: with an empty current playlist,
adopt the new list, clamp the retained index, and start playing when
stopped (panicking — `none` — when playing); with a non-empty current
playlist, re-index the current video via `setPlaylistIndex`, which
panics (`none`) when the video is absent from the new list. -/
def updatePlaylist (ps : PlayState) (playlist : List String) : Option StepResult :=
  if ps.Playlist.length = 0 then
    if ps.State = State.playing then none
    else
      let ps1 := { ps with Playlist := playlist }
      let ps2 :=
        if (playlist.length : Int) ≤ ps1.Index then
          { ps1 with Index := (playlist.length : Int) - 1 }
        else ps1
      if ps2.State = State.stopped then startPlaying ps2 0
      else some ⟨ps2, none, none⟩
  else
    match listIndex ps.Playlist ps.Index with
    | none => none
    | some videoId =>
      let ps1 := { ps with Playlist := playlist }
      match setPlaylistIndex playlist videoId with
      | none => none
      | some i => some ⟨{ ps1 with Index := (i : Int) }, none, none⟩

/-- player.go:51-68 `GetPosition`: 0 when stopped, the stored
`bufferingPosition` when buffering, the backend-reported position
otherwise; `none` models the `panic("got position < 0")`. -/
def getPosition (ps : PlayState) (backendPosition : Int) : Option Int :=
  let position : Int :=
    if ps.State = State.stopped then 0
    else if ps.State = State.buffering then ps.bufferingPosition
    else backendPosition
  if position < 0 then none else some position

/-! ## Go string helpers (strconv, net/url), as used by the modelled code

These model the standard-library functions the source calls, on a 64-bit
platform (`int` = `int64`).  Percent-decoding of query values is not
modelled (the modelled inputs use no escapes). -/

/-- The numeric value of a list of decimal digit characters, or `none`
when the list is empty or contains a non-digit. -/
def digitsToNat : List Char → Nat → Option Nat
  | [], acc => some acc
  | c :: rest, acc =>
    if c.isDigit then digitsToNat rest (acc * 10 + (c.toNat - 48)) else none

/-- strconv.ParseInt(s, 10, 64) (also `Atoi` on a 64-bit platform):
optional sign, one or more digits, value within the int64 range. -/
def parseGoInt64 (s : String) : Option Int :=
  let p : Bool × List Char :=
    match s.data with
    | '-' :: rest => (true, rest)
    | '+' :: rest => (false, rest)
    | rest => (false, rest)
  match p.2 with
  | [] => none
  | ds =>
    match digitsToNat ds 0 with
    | none => none
    | some v =>
      if p.1 then if v ≤ 2 ^ 63 then some (-(v : Int)) else none
      else if v ≤ 2 ^ 63 - 1 then some (v : Int) else none

/-- strconv.Atoi — on a 64-bit platform, ParseInt with bit size 64. -/
def goAtoi (s : String) : Option Int :=
  parseGoInt64 s

/-- The prefix of a character list before the first occurrence of `sep`. -/
def takeUntilChar (sep : Char) : List Char → List Char
  | [] => []
  | c :: rest => if c = sep then [] else c :: takeUntilChar sep rest

/-- The suffix of a character list after the first occurrence of `sep`,
or `none` when `sep` does not occur. -/
def dropPastChar (sep : Char) : List Char → Option (List Char)
  | [] => none
  | c :: rest => if c = sep then some rest else dropPastChar sep rest

/-- strings.Split with a one-character separator: Go's Split never
returns an empty list (`Split "" sep = [""]`). -/
def splitOnChar (sep : Char) : List Char → List (List Char)
  | [] => [[]]
  | c :: rest =>
    if c = sep then [] :: splitOnChar sep rest
    else
      match splitOnChar sep rest with
      | [] => [[c]]
      | l :: ls => (c :: l) :: ls

/-- strings.Split (single-character separator). -/
def goSplit (s : String) (sep : Char) : List String :=
  (splitOnChar sep s.data).map String.mk

/-- url.Parse's RawQuery: everything after the first `?`, the fragment
(from the first `#`) excluded; empty when there is no query. -/
def rawQuery (s : String) : String :=
  match dropPastChar '?' (takeUntilChar '#' s.data) with
  | none => ""
  | some cs => String.mk cs

/-- url.ParseQuery followed by Values.Get: the value of the first
`&`-separated pair whose key (the part before the first `=`) is `key`. -/
def queryGet (query key : String) : Option String :=
  (splitOnChar '&' query.data).findSome? (fun p =>
    if String.mk (takeUntilChar '=' p) = key then
      some (String.mk ((dropPastChar '=' p).getD []))
    else none)

/-! ## Stream resolver (apps/youtube/mp/youtube.go)

Times are unix seconds (`getExpiresFromURL` builds `time.Unix(seconds, 0)`);
`Option Int` is used where the zero `time.Time` matters (`IsZero`).
A resolver entry's `url` is filled in from the line the helper process
writes (minus the trailing newline); the python helper writes an empty
line when extraction fails.  The model folds the asynchronous fetch into
`getStream`, giving the state once the fetch has completed — which is
what the blocking `GetURL` observes. -/

/-- mp/youtube.go `type VideoURL struct` (the fetch mutex is the blocking
mechanism, not data). -/
structure VideoURL where
  videoId : String
  url : String
  expires : Option Int
deriving DecidableEq, Repr

/-- mp/youtube.go:178-195 `getExpiresFromURL`: parse the URL's `expire`
query parameter as unix seconds. -/
def getExpiresFromURL (videoURL : String) : Option Int :=
  parseGoInt64 ((queryGet (rawQuery videoURL) "expire").getD "")

/-- mp/youtube.go:197-200 `WillExpire`: true when the expiry time is set
and lies strictly before one hour from now. -/
def VideoURL.WillExpire (u : VideoURL) (now : Int) : Bool :=
  match u.expires with
  | none => false
  | some e => e < now + 3600

/-- mp/youtube.go:202-209 `GetURL` (after the fetch has completed): the
stored url, empty on a failed resolution. -/
def VideoURL.GetURL (u : VideoURL) : String :=
  u.url

/-- The resolver's `videoId → *VideoURL` map, as an association list. -/
def lookupStream : List (String × VideoURL) → String → Option VideoURL
  | [], _ => none
  | (k, v) :: rest, id => if k = id then some v else lookupStream rest id

/-- Map update for the streams map. -/
def insertStream : List (String × VideoURL) → String → VideoURL → List (String × VideoURL)
  | [], id, v => [(id, v)]
  | (k, w) :: rest, id, v =>
    if k = id then (id, v) :: rest else (k, w) :: insertStream rest id v

/-- The outcome of `getStream`: the entry (with its fetch completed), the
updated map, and whether a fresh helper fetch was issued. -/
structure GetStreamResult where
  stream : VideoURL
  streams : List (String × VideoURL)
  fetched : Bool
deriving DecidableEq, Repr

/-- mp/youtube.go:119-169 `getStream`, with the asynchronous fetch folded
in: a cached entry that will not expire soon is returned as is; otherwise
a new entry is created with `expires = now + 5 hours`, stored, and filled
from the helper's reply line (`helperLine`, empty on failure).  The
`expire` parameter of the resolved URL is only compared against the
estimate for a log warning (lines 160-165) and never stored.  `none`
models the `panic("empty video ID")`. -/
def getStream (streams : List (String × VideoURL)) (videoId : String)
    (now : Int) (helperLine : String) : Option GetStreamResult :=
  if videoId = "" then none
  else
    match lookupStream streams videoId with
    | some stream =>
      if ¬ stream.WillExpire now then some ⟨stream, streams, false⟩
      else
        let fresh : VideoURL := ⟨videoId, helperLine, some (now + 18000)⟩
        some ⟨fresh, insertStream streams videoId fresh, true⟩
    | none =>
      let fresh : VideoURL := ⟨videoId, helperLine, some (now + 18000)⟩
      some ⟨fresh, insertStream streams videoId fresh, true⟩

/-- mp/youtube.go:115-117 `GetStream`: `getStream(videoId).GetURL()` —
the returned url, the updated map and whether a fetch was issued. -/
def GetStream (streams : List (String × VideoURL)) (videoId : String)
    (now : Int) (helperLine : String) : Option (String × List (String × VideoURL) × Bool) :=
  (getStream streams videoId now helperLine).map
    (fun r => (r.stream.GetURL, r.streams, r.fetched))

/-! ## Facade outbound messages (apps/youtube/youtube.go, playerEvents) -/

/-- youtube.go `type outgoingMessage struct`; the `args` string map is an
association list with distinct keys. -/
structure OutgoingMessage where
  command : String
  args : List (String × String)
deriving DecidableEq, Repr

/-- Round `n / d` to the nearest integer, ties to even (`d > 0`). -/
def roundHalfEven (n d : Nat) : Nat :=
  let q := n / d
  let r := n % d
  if 2 * r < d then q
  else if d < 2 * r then q + 1
  else if q % 2 = 0 then q else q + 1

/-- Pad a value below 1000 to three decimal digits. -/
def pad3 (n : Nat) : String :=
  if n < 10 then "00" ++ toString n
  else if n < 100 then "0" ++ toString n
  else toString n

/-- strconv.FormatFloat(d.Seconds(), 'f', 3, 64) for a duration of `d`
nanoseconds, modelled with exact integer rounding of the millisecond
(the float64 detour is exact for the durations of real media). -/
def formatSeconds (d : Int) : String :=
  let ms := roundHalfEven d.natAbs 1000000
  (if d < 0 ∧ ms ≠ 0 then "-" else "") ++ toString (ms / 1000) ++ "." ++ pad3 (ms % 1000)

/-- mp.go `type StateChange struct` (state, position, duration). -/
structure StateChange where
  State : State
  Position : Int
  Duration : Int
deriving DecidableEq, Repr

/-- mp.go `type PlaylistState struct`: the snapshot delivered on the
playlist and now-playing sinks. -/
structure PlaylistState where
  Playlist : List String
  Index : Int
  Position : Int
  Duration : Int
  State : State
  ListId : String
deriving DecidableEq, Repr

/-- youtube.go:362-373 (`playerEvents`, stateChange case): a SEEKING
state is rewritten to BUFFERING, then the `onStateChange` message is
built with the state's integer code. -/
def onStateChangeMessage (change : StateChange) : OutgoingMessage :=
  let st := if change.State = State.seeking then State.buffering else change.State
  ⟨"onStateChange",
   [("currentTime", formatSeconds change.Position),
    ("duration", formatSeconds change.Duration),
    ("seekableStartTime", "0"),
    ("seekableEndTime", formatSeconds change.Duration),
    ("state", toString st.code)]⟩

/-- youtube.go:381-392 (`playerEvents`, playlistChan case): the
`nowPlayingPlaylist` message; args are empty for an empty playlist, and
the state code is encoded without any rewrite.  `none` models the panic
on an out-of-range `ps.Index`. -/
def nowPlayingPlaylistMessage (ps : PlaylistState) : Option OutgoingMessage :=
  if 0 < ps.Playlist.length then
    match listIndex ps.Playlist ps.Index with
    | none => none
    | some vid =>
      some ⟨"nowPlayingPlaylist",
        [("videoIds", String.intercalate "," ps.Playlist),
         ("videoId", vid),
         ("currentTime", formatSeconds ps.Position),
         ("duration", formatSeconds ps.Duration),
         ("state", toString ps.State.code),
         ("currentIndex", toString ps.Index)]⟩
  else some ⟨"nowPlayingPlaylist", []⟩

/-- youtube.go:393-407 (`playerEvents`, nowPlayingChan case): the
`nowPlaying` message; again the state code is encoded without any
rewrite. -/
def nowPlayingMessage (ps : PlaylistState) : Option OutgoingMessage :=
  if 0 < ps.Playlist.length then
    match listIndex ps.Playlist ps.Index with
    | none => none
    | some vid =>
      some ⟨"nowPlaying",
        [("videoId", vid),
         ("currentTime", formatSeconds ps.Position),
         ("duration", formatSeconds ps.Duration),
         ("seekableStartTime", "0"),
         ("seekableEndTime", formatSeconds ps.Duration),
         ("state", toString ps.State.code),
         ("currentIndex", toString ps.Index),
         ("listId", ps.ListId)]⟩
  else some ⟨"nowPlaying", []⟩

/-! ## time.ParseDuration (Go standard library)

`run` parses the remote's `currentTime`/`newTime` arguments with
`time.ParseDuration(s + "s")`.  The grammar is
`[-+]?([0-9]*(\.[0-9]*)?[a-z]+)+` with a special case for "0"; on error
Go returns a zero duration together with the error.  The fractional
contribution, which Go computes through float64, is modelled by exact
integer arithmetic (`f * unit / scale`); this only affects the rounding
of long fractions, never whether parsing succeeds. -/

/-- time.go `leadingInt`: consume leading digits; `none` on int64
overflow (a parse error).  Returns the value, the number of digits
consumed and the rest. -/
def leadingInt : List Char → Nat → Nat → Option (Nat × Nat × List Char)
  | [], acc, cnt => some (acc, cnt, [])
  | c :: rest, acc, cnt =>
    if c.isDigit then
      let acc2 := acc * 10 + (c.toNat - 48)
      if 2 ^ 63 - 1 < acc2 then none
      else leadingInt rest acc2 (cnt + 1)
    else some (acc, cnt, c :: rest)

/-- time.go `leadingFraction`: consume leading digits after the decimal
point, accumulating value and scale until int64 overflow (further digits
are consumed but ignored).  Also returns whether any digit was
consumed. -/
def leadingFraction : List Char → Nat → Nat → Bool → Nat × Nat × List Char × Bool
  | [], x, scale, consumed => (x, scale, [], consumed)
  | c :: rest, x, scale, consumed =>
    if c.isDigit then
      let y := x * 10 + (c.toNat - 48)
      if 2 ^ 63 - 1 < y then leadingFraction rest x scale true
      else leadingFraction rest y (scale * 10) true
    else (x, scale, c :: rest, consumed)

/-- time.go `unitMap` (the two unicode spellings of µs included). -/
def unitValue : String → Option Nat
  | "ns" => some 1
  | "us" => some 1000
  | "µs" => some 1000
  | "μs" => some 1000
  | "ms" => some 1000000
  | "s" => some 1000000000
  | "m" => some 60000000000
  | "h" => some 3600000000000
  | _ => none

/-- The component loop of time.go `ParseDuration`, accumulating
nanoseconds; `fuel` only bounds the recursion (every iteration consumes
at least one character, so `length + 1` fuel never runs out). -/
def parseDurationLoop : Nat → List Char → Nat → Option Nat
  | 0, _, _ => none
  | _, [], d => some d
  | fuel + 1, cs, d =>
    match leadingInt cs 0 0 with
    | none => none
    | some (v, intDigits, s1) =>
      let pre := intDigits ≠ 0
      let fr :=
        match s1 with
        | '.' :: rest => leadingFraction rest 0 1 false
        | _ => (0, 1, s1, false)
      let f := fr.1
      let scale := fr.2.1
      let s2 := fr.2.2.1
      let post := fr.2.2.2
      if ¬pre ∧ ¬post then none
      else
        let unitChars := s2.takeWhile (fun c => ¬(c = '.' ∨ c.isDigit))
        let s3 := s2.drop unitChars.length
        if unitChars.isEmpty then none
        else
          match unitValue (String.mk unitChars) with
          | none => none
          | some u =>
            if (2 ^ 63 - 1) / u < v then none
            else
              let v2 := v * u + f * u / scale
              if 2 ^ 63 - 1 < v2 then none
              else
                let d2 := d + v2
                if 2 ^ 63 - 1 < d2 then none
                else parseDurationLoop fuel s3 d2

/-- time.ParseDuration, returning the duration in nanoseconds, or `none`
on a parse error (Go then returns a zero duration and an error). -/
def goParseDuration (s : String) : Option Int :=
  let p : Bool × List Char :=
    match s.data with
    | '-' :: rest => (true, rest)
    | '+' :: rest => (false, rest)
    | rest => (false, rest)
  if p.2 = ['0'] then some 0
  else if p.2 = [] then none
  else
    (parseDurationLoop (p.2.length + 1) p.2 0).map
      (fun d => if p.1 then -(d : Int) else (d : Int))

/-! ## The setPlaylist command (apps/youtube/youtube.go, run) -/

/-- Go string-map access `args[k]`: the empty string when absent. -/
def argGet (args : List (String × String)) (k : String) : String :=
  (((args.find? (fun p => p.1 = k)).map Prod.snd).getD "")

/-- The arguments of the `yt.mp.SetPlaystate` call issued by `run` for a
`setPlaylist` command. -/
structure SetPlaystateCall where
  playlist : List String
  index : Int
  position : Int
  listId : String
deriving DecidableEq, Repr

/-- youtube.go:260-284 (`run`, setPlaylist case): split `videoIds` on
commas; drop the command when `currentIndex` does not parse; parse
`currentTime + "s"`, keeping the zero position on error (only a
warning); drop the command when the index is out of bounds; otherwise
call `SetPlaystate(playlist, index, position, listId)`.  `none` means
the command was dropped. -/
def handleSetPlaylist (args : List (String × String)) : Option SetPlaystateCall :=
  let playlist := goSplit (argGet args "videoIds") ','
  match goAtoi (argGet args "currentIndex") with
  | none => none
  | some index =>
    let position := (goParseDuration (argGet args "currentTime" ++ "s")).getD 0
    if index < 0 ∨ playlist.length = 0 ∨ (playlist.length : Int) ≤ index then none
    else some ⟨playlist, index, position, argGet args "listId"⟩

/-! ## Outbound batching sender (apps/youtube/youtube.go, sendMessages)

The sender is modelled as a transition system over the events its select
loop reacts to: a message arriving on the outgoing channel, and the
batching deadline expiring (which triggers one POST, retried on error).
Each POST attempt is recorded with the `ofs` and `count` form fields it
carries and whether it succeeded; the outcomes of successive attempts
are an oracle input. -/

/-- One POST of a batch: its `ofs` field, its `count` field, and whether
the HTTP request succeeded. -/
structure OutPost where
  ofs : Nat
  cnt : Nat
  ok : Bool
deriving DecidableEq, Repr

/-- An event the sendMessages loop reacts to. -/
inductive SenderEvent where
  | enqueue (m : OutgoingMessage)
  | flush (outcomes : List Bool)
deriving DecidableEq, Repr

/-- The live state of sendMessages: `queued` is `queuedMessages`, `count`
is the running offset variable `count`, `alive` is false once the
function has returned (after giving up on a POST). -/
structure SenderState where
  queued : List OutgoingMessage
  count : Nat
  alive : Bool
deriving DecidableEq, Repr

/-- youtube.go:813-830, the POST retry loop: re-POST the same form values
until a request succeeds, or give up once `errorRetryTimeout` has counted
past `RETRIES = 25` failures.  Returns the attempts made (all carrying
the same `ofs`/`count`) and whether one succeeded; an exhausted oracle
ends the trace unsuccessfully. -/
def retryLoop : Nat → List Bool → Nat → Nat → List OutPost × Bool
  | _, [], _, _ => ([], false)
  | retries, outcome :: rest, ofs, cnt =>
    if outcome then ([⟨ofs, cnt, true⟩], true)
    else if 25 < retries + 1 then ([⟨ofs, cnt, false⟩], false)
    else
      let r := retryLoop (retries + 1) rest ofs cnt
      (⟨ofs, cnt, false⟩ :: r.1, r.2)

/-- youtube.go:763-856 `sendMessages`, one select iteration: a received
message is appended to the queue; on the deadline, the queue is POSTed
with `count = len(queuedMessages)` and `ofs = count`-the-variable, and on
success the offset advances by the batch size and the queue is cleared
(lines 798-839). -/
def senderStep (st : SenderState) (ev : SenderEvent) : SenderState × List OutPost :=
  if ¬ st.alive then (st, [])
  else
    match ev with
    | .enqueue m => ({ st with queued := st.queued ++ [m] }, [])
    | .flush outcomes =>
      let n := st.queued.length
      let r := retryLoop 0 outcomes st.count n
      if r.2 then ({ st with queued := [], count := st.count + n }, r.1)
      else ({ st with alive := false }, r.1)

/-- Run the sender over a whole event trace, collecting every POST. -/
def senderRun (st : SenderState) : List SenderEvent → SenderState × List OutPost
  | [] => (st, [])
  | ev :: evs =>
    let r := senderStep st ev
    let rest := senderRun r.1 evs
    (rest.1, r.2 ++ rest.2)

/-- The state at the start of sendMessages: empty queue, offset 0. -/
def senderInit : SenderState :=
  ⟨[], 0, true⟩

/-- The number of messages carried by the successful POSTs of a list. -/
def sumCntOk (posts : List OutPost) : Nat :=
  ((posts.filter (fun p => p.ok)).map (fun p => p.cnt)).sum

/-! # Theorems -/

/-! ## C8 — rid.go -/

/-- The ids produced by successive `Next` calls count up one by one from
the stored number. -/
theorem RandomID.nextIds_eq (r : RandomID) (k : Nat) :
    r.nextIds k = (List.range k).map (fun j : Nat => r.number + 1 + (j : Int)) := by
  induction k generalizing r with
  | zero => rfl
  | succ k ih =>
    rw [List.range_succ_eq_map]
    simp only [RandomID.nextIds, RandomID.Next, ih, List.map_cons, List.map_map,
      List.cons.injEq]
    constructor
    · push_cast; ring
    · apply List.map_congr_left
      intro j _
      simp only [Function.comp]
      push_cast
      ring

/-- C8 (confirmed): `Restart` sets the counter to the random draw plus
10000, which lies in `[10000, 90000)` for every value `rand.Intn 80000`
can return; each `Next` increments the counter and returns the new
value, so the request ids issued between two restarts are
`base+1, base+2, …`: strictly increasing by one from the random
five-digit base. -/
theorem rid_restart_next_spec (n : Int) (hn0 : 0 ≤ n) (hn : n < 80000) :
    (10000 ≤ (RandomID.Restart n).number ∧ (RandomID.Restart n).number < 90000) ∧
    (∀ r : RandomID, r.Next.2 = r.number + 1 ∧ r.Next.1.number = r.number + 1) ∧
    (∀ k : Nat, (RandomID.Restart n).nextIds k =
      (List.range k).map (fun j : Nat => (RandomID.Restart n).number + 1 + (j : Int))) := by
  refine ⟨⟨?_, ?_⟩, fun r => ⟨rfl, rfl⟩, fun k => RandomID.nextIds_eq _ k⟩
  · simp only [RandomID.Restart]
    omega
  · simp only [RandomID.Restart]
    omega

/-- Witness for C8 at the draw `n = 500`. -/
theorem rid_restart_next_spec_witness :
    (RandomID.Restart 500).nextIds 3 =
      (List.range 3).map (fun j : Nat => (RandomID.Restart 500).number + 1 + (j : Int)) :=
  (rid_restart_next_spec 500 (by decide) (by decide)).2.2 3

/-! ## C1 — youtube.go handleRawReceivedMessage -/

/-- `int32` narrowing is the identity on values already in range. -/
theorem wrap32_eq_self {x : Int} (h1 : -(2 ^ 31) ≤ x) (h2 : x < 2 ^ 31) :
    wrap32 x = x := by
  unfold wrap32
  rw [Int.emod_eq_of_lt (by omega) (by omega)]
  omega

/-- The aid after one frame, under in-range hypotheses: skipped exactly
when the index is at most the current aid, applied (to the index itself)
otherwise. -/
theorem handleAid_cases (aid index : Int)
    (ha1 : -(2 ^ 31) ≤ aid) (ha2 : aid < 2 ^ 31)
    (hi1 : 0 ≤ index) (hi2 : index < 2 ^ 31) :
    (index ≤ aid → handleAid aid index = none) ∧
    (aid < index → handleAid aid index = some index) := by
  constructor
  · intro hle
    have hne : index ≠ wrap32 (aid + 1) := by
      rcases lt_or_eq_of_le (by omega : aid + 1 ≤ 2 ^ 31) with h | h
      · rw [wrap32_eq_self (by omega) h]
        omega
      · rw [h]
        have : wrap32 (2 ^ 31) = -(2 ^ 31) := by decide
        rw [this]
        omega
    simp [handleAid, hne, hle]
  · intro hlt
    have hcond : ¬(index ≠ wrap32 (aid + 1) ∧ index ≤ aid) := by
      intro hc
      omega
    simp only [handleAid, if_neg hcond]
    rw [wrap32_eq_self (by omega) hi2]

/-- Over a whole trace of in-range frame indices, the aid never
decreases. -/
theorem foldAid_ge (indices : List Int) : ∀ aid : Int,
    -(2 ^ 31) ≤ aid → aid < 2 ^ 31 →
    (∀ i ∈ indices, 0 ≤ i ∧ i < 2 ^ 31) → aid ≤ foldAid aid indices := by
  induction indices with
  | nil => intro aid _ _ _; exact le_refl _
  | cons i rest ih =>
    intro aid ha1 ha2 hall
    obtain ⟨hi1, hi2⟩ := hall i (List.mem_cons_self i rest)
    have hrest : ∀ j ∈ rest, 0 ≤ j ∧ j < 2 ^ 31 :=
      fun j hj => hall j (List.mem_cons_of_mem i hj)
    have hcases := handleAid_cases aid i ha1 ha2 hi1 hi2
    by_cases hle : i ≤ aid
    · have : foldAid aid (i :: rest) = foldAid aid rest := by
        simp [foldAid, hcases.1 hle]
      rw [this]
      exact ih aid ha1 ha2 hrest
    · have hlt : aid < i := by omega
      have : foldAid aid (i :: rest) = foldAid i rest := by
        simp [foldAid, hcases.2 hlt]
      rw [this]
      exact le_trans (le_of_lt hlt) (ih i (by omega) hi2 hrest)

/-- C1 counterexample: at `aid = 0`, a frame with index `2^31 = 2147483648`
(which a 64-bit Go `int` represents exactly) is not skipped, yet
`yt.aid = int32(message.index)` stores `-2147483648`: the aid is *not*
set to the frame's index, and it decreases. -/
theorem handleAid_cex :
    handleAid 0 2147483648 = some (-2147483648) ∧
    foldAid 0 [2147483648] = -2147483648 ∧ ¬ (0 : Int) ≤ -2147483648 := by
  refine ⟨by decide, by decide, by decide⟩

/-- C1 (amended): for frames whose index is non-negative and fits in the
`int32` that stores `aid` (`0 ≤ index < 2^31`), a frame with
`index ≤ aid` is skipped with aid unchanged, and any other frame sets
`aid := index` — including when `index > aid + 1`; consequently, over any
sequence of such frames, aid is monotonically non-decreasing. -/
theorem handleRawReceivedMessage_aid_spec :
    (∀ aid index : Int, -(2 ^ 31) ≤ aid → aid < 2 ^ 31 → 0 ≤ index → index < 2 ^ 31 →
      (index ≤ aid → handleAid aid index = none) ∧
      (aid < index → handleAid aid index = some index)) ∧
    (∀ (aid : Int) (indices : List Int), -(2 ^ 31) ≤ aid → aid < 2 ^ 31 →
      (∀ i ∈ indices, 0 ≤ i ∧ i < 2 ^ 31) → aid ≤ foldAid aid indices) :=
  ⟨fun aid index ha1 ha2 hi1 hi2 => handleAid_cases aid index ha1 ha2 hi1 hi2,
   fun aid indices ha1 ha2 hall => foldAid_ge indices aid ha1 ha2 hall⟩

/-- Witness for C1 at `aid = 5` with frames `3` (old, skipped), `7`
(applied) and the gapped trace `[7, 3, 9]`. -/
theorem handleRawReceivedMessage_aid_spec_witness :
    handleAid 5 3 = none ∧ handleAid 5 7 = some 7 ∧ (5 : Int) ≤ foldAid 5 [7, 3, 9] :=
  ⟨(handleRawReceivedMessage_aid_spec.1 5 3 (by decide) (by decide) (by decide)
      (by decide)).1 (by decide),
   (handleRawReceivedMessage_aid_spec.1 5 7 (by decide) (by decide) (by decide)
      (by decide)).2 (by decide),
   handleRawReceivedMessage_aid_spec.2 5 [7, 3, 9] (by decide) (by decide) (by decide)⟩

/-! ## C2 — player.go run, end-of-track -/

/-- C2 counterexample: a backend STOPPED event arriving while the
controller state is STOPPED (which is not BUFFERING) with
`Index + 1 < len(Playlist)` is dropped by the duplicate-event filter
(`if event == ps.State`, player.go:301): the index is not incremented
and no playback is started, contrary to the claim. -/
theorem handleStoppedEvent_cex :
    (⟨["a", "b"], 0, State.stopped, -1, 50⟩ : PlayState).State ≠ State.buffering ∧
    (⟨["a", "b"], 0, State.stopped, -1, 50⟩ : PlayState).Index + 1 <
      ((⟨["a", "b"], 0, State.stopped, -1, 50⟩ : PlayState).Playlist.length : Int) ∧
    handleStoppedEvent ⟨["a", "b"], 0, State.stopped, -1, 50⟩ =
      some ⟨⟨["a", "b"], 0, State.stopped, -1, 50⟩, none, none⟩ := by
  refine ⟨by decide, by decide, by decide⟩

/-- C2 (amended): when the backend reports STOPPED while the controller
state is neither BUFFERING nor STOPPED (a STOPPED event in state STOPPED
is dropped as a duplicate): if `index + 1 < len(playlist)` the controller
increments the index and starts playing the next video at position 0,
entering BUFFERING; otherwise it transitions to STOPPED emitting position
0, keeping the playlist unchanged. -/
theorem handleStoppedEvent_spec (ps : PlayState)
    (hnb : ps.State ≠ State.buffering) (hns : ps.State ≠ State.stopped)
    (hidx : 0 ≤ ps.Index) :
    (ps.Index + 1 < (ps.Playlist.length : Int) →
      ∃ v, listIndex ps.Playlist (ps.Index + 1) = some v ∧
        handleStoppedEvent ps =
          some ⟨{ ps with
                    Index := ps.Index + 1
                    State := State.buffering
                    bufferingPosition := 0 },
                some (State.buffering, 0), some (v, 0)⟩) ∧
    ((ps.Playlist.length : Int) ≤ ps.Index + 1 →
      handleStoppedEvent ps =
        some ⟨{ ps with State := State.stopped, bufferingPosition := -1 },
              some (State.stopped, 0), none⟩) := by
  have h1 : ¬ State.stopped = ps.State := fun h => hns h.symm
  constructor
  · intro hlt
    have hn : (ps.Index + 1).toNat < ps.Playlist.length := by omega
    obtain ⟨v, hv⟩ : ∃ v, ps.Playlist.get? (ps.Index + 1).toNat = some v := by
      cases hg : ps.Playlist.get? (ps.Index + 1).toNat with
      | none => exact absurd (List.get?_eq_none.mp hg) (by omega)
      | some v => exact ⟨v, rfl⟩
    have h0 : (0 : Int) ≤ ps.Index + 1 := by omega
    have hv' : ps.Playlist[(ps.Index + 1).toNat]? = some v := by
      rw [← List.get?_eq_getElem?]
      exact hv
    refine ⟨v, ?_, ?_⟩
    · simp [listIndex, hv', h0]
    · simp only [handleStoppedEvent, if_neg h1, if_neg hnb, if_pos hlt,
        startPlaying, setPlayState, listIndex]
      simp [hv', h0]
  · intro hge
    have hnlt : ¬ ps.Index + 1 < (ps.Playlist.length : Int) := by omega
    simp only [handleStoppedEvent, if_neg h1, if_neg hnb, if_neg hnlt,
      setPlayState]
    simp

/-- Witness for C2: both branches at concrete states — playing `"a"` of
`["a", "b"]` auto-advances to `"b"`, and playing the last track settles
to STOPPED. -/
theorem handleStoppedEvent_spec_witness :
    (∃ v, listIndex ["a", "b"] ((0 : Int) + 1) = some v ∧
      handleStoppedEvent ⟨["a", "b"], 0, State.playing, -1, 50⟩ =
        some ⟨⟨["a", "b"], (0 : Int) + 1, State.buffering, 0, 50⟩,
              some (State.buffering, 0), some (v, 0)⟩) ∧
    handleStoppedEvent ⟨["a", "b"], 1, State.paused, -1, 50⟩ =
      some ⟨⟨["a", "b"], 1, State.stopped, -1, 50⟩, some (State.stopped, 0), none⟩ :=
  ⟨(handleStoppedEvent_spec ⟨["a", "b"], 0, State.playing, -1, 50⟩
      (by decide) (by decide) (by decide)).1 (by decide),
   (handleStoppedEvent_spec ⟨["a", "b"], 1, State.paused, -1, 50⟩
      (by decide) (by decide) (by decide)).2 (by decide)⟩

/-! ## C10 — player.go GetPosition / setPlayState -/

/-- C10 (confirmed): `GetPosition` returns 0 when stopped, the stored
`bufferingPosition` when buffering, and the backend position otherwise;
it panics (`none`) exactly when the selected position is negative;
`setPlayState` stores the given position in `bufferingPosition` in
BUFFERING and `-1` in every other state; and under the invariant that the
buffering position is non-negative in BUFFERING, the panic is unreachable
for non-negative backend positions. -/
theorem getPosition_spec :
    (∀ (ps : PlayState) (bpos : Int), ps.State = State.stopped →
      getPosition ps bpos = some 0) ∧
    (∀ (ps : PlayState) (bpos : Int), ps.State = State.buffering →
      0 ≤ ps.bufferingPosition → getPosition ps bpos = some ps.bufferingPosition) ∧
    (∀ (ps : PlayState) (bpos : Int), ps.State ≠ State.stopped →
      ps.State ≠ State.buffering → 0 ≤ bpos → getPosition ps bpos = some bpos) ∧
    (∀ (ps : PlayState) (bpos : Int), ps.State = State.buffering →
      ps.bufferingPosition < 0 → getPosition ps bpos = none) ∧
    (∀ (ps : PlayState) (state : State) (position : Int),
      (setPlayState ps state position).1.bufferingPosition =
        (if state = State.buffering then position else -1) ∧
      (setPlayState ps state position).1.State = state) ∧
    (∀ (ps : PlayState) (bpos : Int),
      (ps.State = State.buffering → 0 ≤ ps.bufferingPosition) → 0 ≤ bpos →
      (getPosition ps bpos).isSome = true) := by
  refine ⟨?_, ?_, ?_, ?_, ?_, ?_⟩
  · intro ps bpos h
    simp [getPosition, h]
  · intro ps bpos h hge
    have hns : ps.State ≠ State.stopped := by rw [h]; decide
    have hnl : ¬ ps.bufferingPosition < 0 := by omega
    simp [getPosition, h, hns, hnl]
  · intro ps bpos h1 h2 hge
    have hnl : ¬ bpos < 0 := by omega
    simp [getPosition, h1, h2, hnl]
  · intro ps bpos h hlt
    have hns : ps.State ≠ State.stopped := by rw [h]; decide
    simp [getPosition, h, hns, hlt]
  · intro ps state position
    exact ⟨rfl, rfl⟩
  · intro ps bpos hinv hge
    by_cases hs : ps.State = State.stopped
    · simp [getPosition, hs]
    · by_cases hb : ps.State = State.buffering
      · have hp := hinv hb
        have hnl : ¬ ps.bufferingPosition < 0 := by omega
        simp [getPosition, hs, hb, hnl]
      · have hnl : ¬ bpos < 0 := by omega
        simp [getPosition, hs, hb, hnl]

/-- Witness for C10 at concrete play states in each branch. -/
theorem getPosition_spec_witness :
    getPosition ⟨["a"], 0, State.stopped, -1, 50⟩ 7 = some 0 ∧
    getPosition ⟨["a"], 0, State.buffering, 4, 50⟩ 7 = some 4 ∧
    getPosition ⟨["a"], 0, State.playing, -1, 50⟩ 7 = some 7 ∧
    getPosition ⟨["a"], 0, State.buffering, -2, 50⟩ 7 = none ∧
    (setPlayState ⟨["a"], 0, State.playing, 3, 50⟩ State.buffering 9).1.bufferingPosition =
      (if State.buffering = State.buffering then (9 : Int) else -1) ∧
    (getPosition ⟨["a"], 0, State.paused, -1, 50⟩ 7).isSome = true :=
  ⟨getPosition_spec.1 _ 7 rfl,
   getPosition_spec.2.1 ⟨["a"], 0, State.buffering, 4, 50⟩ 7 rfl (by decide),
   getPosition_spec.2.2.1 ⟨["a"], 0, State.playing, -1, 50⟩ 7 (by decide) (by decide)
     (by decide),
   getPosition_spec.2.2.2.1 ⟨["a"], 0, State.buffering, -2, 50⟩ 7 rfl (by decide),
   (getPosition_spec.2.2.2.2.1 ⟨["a"], 0, State.playing, 3, 50⟩ State.buffering 9).1,
   getPosition_spec.2.2.2.2.2 ⟨["a"], 0, State.paused, -1, 50⟩ 7 (by decide) (by decide)⟩

/-! ## C6 — player.go updatePlaylist / setPlaylistIndex -/

/-- The search loop of `setPlaylistIndex` computes the index of the first
occurrence, and fails (`none`) when the video is absent. -/
theorem setPlaylistIndex_eq (l : List String) (v : String) :
    setPlaylistIndex l v = if v ∈ l then some (l.indexOf v) else none := by
  induction l with
  | nil => simp [setPlaylistIndex]
  | cons a rest ih =>
    by_cases h : a = v
    · subst h
      simp [setPlaylistIndex, List.indexOf_cons_self]
    · have hne : ¬ v = a := fun hv => h hv.symm
      simp only [setPlaylistIndex, if_neg h, ih, List.mem_cons]
      by_cases hm : v ∈ rest
      · have hb : (a == v) = false := by simp [h]
        simp [hm, hne, List.indexOf_cons, hb]
      · simp [hm, hne]

/-- C6 counterexample: replacing the playlist `["a"]` (current video
`"a"`, index 0) by `["b"]`, which does not contain the current video,
makes `setPlaylistIndex` panic ("current video does not exist in new
playlist", modelled by `none`) — the prior index is not clamped and
kept. -/
theorem updatePlaylist_cex :
    updatePlaylist ⟨["a"], 0, State.paused, -1, 50⟩ ["b"] = none := by
  decide

/-- C6 (amended): when a new playlist replaces a non-empty current one,
the controller re-indexes to the *first* occurrence of the current
videoId in the new list (a duplicate only triggers a warning); when the
current videoId is absent, the controller panics instead of keeping a
clamped index. -/
theorem updatePlaylist_reindex_spec (ps : PlayState) (newList : List String)
    (v : String) (hne : ps.Playlist.length ≠ 0)
    (hv : listIndex ps.Playlist ps.Index = some v) :
    (v ∈ newList →
      updatePlaylist ps newList =
        some ⟨{ ps with Playlist := newList, Index := (newList.indexOf v : Int) },
              none, none⟩) ∧
    (v ∉ newList → updatePlaylist ps newList = none) := by
  constructor
  · intro hmem
    simp only [updatePlaylist, if_neg hne, hv, setPlaylistIndex_eq, if_pos hmem,
      Option.map_some]
  · intro hnm
    simp only [updatePlaylist, if_neg hne, hv, setPlaylistIndex_eq, if_neg hnm]

/-- Witness for C6: the current video `"b"` occurs twice in the new list
`["x", "b", "b"]`; the first occurrence (index 1) is chosen. -/
theorem updatePlaylist_reindex_spec_witness :
    updatePlaylist ⟨["a", "b"], 1, State.paused, -1, 50⟩ ["x", "b", "b"] =
      some ⟨⟨["x", "b", "b"], ((["x", "b", "b"] : List String).indexOf "b" : Int),
            State.paused, -1, 50⟩, none, none⟩ :=
  (updatePlaylist_reindex_spec ⟨["a", "b"], 1, State.paused, -1, 50⟩ ["x", "b", "b"]
    "b" (by decide) (by decide)).1 (by decide)

/-! ## C3 — mp/youtube.go getStream / WillExpire -/

/-- C3 counterexample: the resolved URL carries `expire=1000`, and
`getExpiresFromURL` extracts it, but the entry created by `getStream`
stores `now + 5 hours` (18000 seconds from `now = 0`), not the value of
the `expire` parameter: the stored expiry is never derived from the
URL. -/
theorem getStream_expiry_cex :
    getExpiresFromURL "http://cdn/v?expire=1000" = some 1000 ∧
    getStream [] "a" 0 "http://cdn/v?expire=1000" =
      some ⟨⟨"a", "http://cdn/v?expire=1000", some 18000⟩,
            [("a", ⟨"a", "http://cdn/v?expire=1000", some 18000⟩)], true⟩ ∧
    (18000 : Int) ≠ 1000 := by
  refine ⟨by decide, by decide, by decide⟩

/-- C3 (amended): every entry the resolver creates stores the expiry
`now + 5 hours` fixed at creation — the resolved URL's `expire`
parameter is parsed only for a log warning and never stored; an entry is
near-expiry, and is then replaced by a fresh fetch on the next resolve
of its id, exactly when its stored expiry lies within one hour of the
current time (a cached entry that is not near expiry is returned without
a fetch). -/
theorem getStream_expiry_spec (streams : List (String × VideoURL))
    (videoId : String) (now : Int) (helperLine : String) (hv : videoId ≠ "") :
    (∀ cached, lookupStream streams videoId = some cached →
      cached.WillExpire now = false →
      getStream streams videoId now helperLine = some ⟨cached, streams, false⟩) ∧
    (∀ cached, lookupStream streams videoId = some cached →
      cached.WillExpire now = true →
      getStream streams videoId now helperLine =
        some ⟨⟨videoId, helperLine, some (now + 18000)⟩,
              insertStream streams videoId ⟨videoId, helperLine, some (now + 18000)⟩,
              true⟩) ∧
    (lookupStream streams videoId = none →
      getStream streams videoId now helperLine =
        some ⟨⟨videoId, helperLine, some (now + 18000)⟩,
              insertStream streams videoId ⟨videoId, helperLine, some (now + 18000)⟩,
              true⟩) ∧
    (∀ (u : VideoURL) (e : Int), u.expires = some e →
      (u.WillExpire now = true ↔ e < now + 3600)) := by
  refine ⟨?_, ?_, ?_, ?_⟩
  · intro cached hc hw
    simp [getStream, hv, hc, hw]
  · intro cached hc hw
    simp [getStream, hv, hc, hw]
  · intro hc
    simp [getStream, hv, hc]
  · intro u e he
    simp [VideoURL.WillExpire, he]

/-- Witness for C3: a cached entry for `"a"` expiring at time 100 is
near expiry at `now = 0` and is replaced by a fresh entry expiring at
18000. -/
theorem getStream_expiry_spec_witness :
    getStream [("a", ⟨"a", "u0", some 100⟩)] "a" 0 "u1" =
      some ⟨⟨"a", "u1", some (0 + 18000)⟩,
            insertStream [("a", ⟨"a", "u0", some 100⟩)] "a" ⟨"a", "u1", some (0 + 18000)⟩,
            true⟩ :=
  (getStream_expiry_spec [("a", ⟨"a", "u0", some 100⟩)] "a" 0 "u1"
    (by decide)).2.1 ⟨"a", "u0", some 100⟩ (by decide) (by decide)

/-! ## C4 — mp/youtube.go GetStream / GetURL after a failed fetch -/

/-- C4 counterexample: after the helper answers the first resolve of
`"a"` with a blank line (resolution failed, empty url), a second resolve
of `"a"` — even one whose helper would now succeed — returns the cached
failed entry's empty url and issues no fetch (`fetched = false`):
resolution is not restarted. -/
theorem getStream_failure_cex :
    GetStream [] "a" 0 "" = some ("", [("a", ⟨"a", "", some 18000⟩)], true) ∧
    GetStream [("a", ⟨"a", "", some 18000⟩)] "a" 0 "http://cdn/good" =
      some ("", [("a", ⟨"a", "", some 18000⟩)], false) := by
  refine ⟨by decide, by decide⟩

/-- C4 (amended): `GetStream` never raises toward its caller for a
non-empty video id — it returns the empty string when the helper writes
a blank line; the failed entry however stays cached with its creation
expiry, so every subsequent resolve of the same id before the entry
nears expiry returns the cached empty url without restarting
resolution. -/
theorem getStream_failure_spec (videoId : String) (now later : Int)
    (hv : videoId ≠ "") (hsoon : later + 3600 ≤ now + 18000) :
    GetStream [] videoId now "" =
      some ("", [(videoId, ⟨videoId, "", some (now + 18000)⟩)], true) ∧
    ∀ line2, GetStream [(videoId, ⟨videoId, "", some (now + 18000)⟩)] videoId later line2 =
      some ("", [(videoId, ⟨videoId, "", some (now + 18000)⟩)], false) := by
  constructor
  · simp [GetStream, getStream, hv, lookupStream, insertStream, VideoURL.GetURL]
  · intro line2
    have hnw : ¬ (now + 18000 < later + 3600) := by omega
    simp [GetStream, getStream, hv, lookupStream, VideoURL.WillExpire,
      VideoURL.GetURL, hnw]

/-- Witness for C4 at `videoId = "a"`, `now = 0`, `later = 10`. -/
theorem getStream_failure_spec_witness :
    GetStream [] "a" 0 "" = some ("", [("a", ⟨"a", "", some (0 + 18000)⟩)], true) ∧
    GetStream [("a", ⟨"a", "", some (0 + 18000)⟩)] "a" 10 "u2" =
      some ("", [("a", ⟨"a", "", some (0 + 18000)⟩)], false) :=
  ⟨(getStream_failure_spec "a" 0 10 (by decide) (by decide)).1,
   (getStream_failure_spec "a" 0 10 (by decide) (by decide)).2 "u2"⟩

/-! ## C7 — youtube.go playerEvents state codes -/

/-- C7 counterexample: a SEEKING snapshot crosses the wire as state "4"
in both `nowPlaying` and `nowPlayingPlaylist` — only `onStateChange`
rewrites SEEKING to BUFFERING. -/
theorem stateCode_wire_cex :
    (nowPlayingMessage ⟨["a"], 0, 0, 0, State.seeking, "L"⟩).map
      (fun m => argGet m.args "state") = some "4" ∧
    (nowPlayingPlaylistMessage ⟨["a"], 0, 0, 0, State.seeking, "L"⟩).map
      (fun m => argGet m.args "state") = some "4" ∧
    "4" ∉ ["0", "1", "2", "3"] := by
  refine ⟨by decide, by decide, by decide⟩

/-- C7 (amended): the SEEKING → BUFFERING rewrite happens only in
`onStateChange`, whose state code is therefore always at most 3; the
`nowPlaying` and `nowPlayingPlaylist` snapshot messages encode the
controller state unmodified, so a SEEKING snapshot would cross the wire
as code 4 there. -/
theorem stateCode_wire_spec :
    (∀ change : StateChange,
      argGet (onStateChangeMessage change).args "state" =
        toString (if change.State = State.seeking then State.buffering
                  else change.State).code ∧
      (if change.State = State.seeking then State.buffering
       else change.State).code ≤ 3) ∧
    (∀ (ps : PlaylistState) (m : OutgoingMessage), 0 < ps.Playlist.length →
      nowPlayingMessage ps = some m →
      argGet m.args "state" = toString ps.State.code) ∧
    (∀ (ps : PlaylistState) (m : OutgoingMessage), 0 < ps.Playlist.length →
      nowPlayingPlaylistMessage ps = some m →
      argGet m.args "state" = toString ps.State.code) := by
  refine ⟨?_, ?_, ?_⟩
  · intro change
    obtain ⟨s, p, d⟩ := change
    constructor
    · cases s <;> rfl
    · cases s <;> simp [State.code]
  · intro ps m hlen hm
    simp only [nowPlayingMessage, if_pos hlen] at hm
    cases h : listIndex ps.Playlist ps.Index with
    | none => rw [h] at hm; cases hm
    | some vid =>
      rw [h] at hm
      injection hm with hm2
      subst hm2
      rfl
  · intro ps m hlen hm
    simp only [nowPlayingPlaylistMessage, if_pos hlen] at hm
    cases h : listIndex ps.Playlist ps.Index with
    | none => rw [h] at hm; cases hm
    | some vid =>
      rw [h] at hm
      injection hm with hm2
      subst hm2
      rfl

/-- Witness for C7: a SEEKING state change goes out as "3", while a
PLAYING snapshot goes out with its own code "1". -/
theorem stateCode_wire_spec_witness :
    argGet (onStateChangeMessage ⟨State.seeking, 0, 0⟩).args "state" =
      toString (if State.seeking = State.seeking then State.buffering
                else State.seeking).code ∧
    argGet (⟨"nowPlaying",
      [("videoId", "a"), ("currentTime", "0.000"), ("duration", "0.000"),
       ("seekableStartTime", "0"), ("seekableEndTime", "0.000"), ("state", "1"),
       ("currentIndex", "0"), ("listId", "L")]⟩ : OutgoingMessage).args "state" =
      toString (State.playing).code :=
  ⟨(stateCode_wire_spec.1 ⟨State.seeking, 0, 0⟩).1,
   stateCode_wire_spec.2.1 ⟨["a"], 0, 0, 0, State.playing, "L"⟩ _ (by decide) (by decide)⟩

/-! ## C9 — youtube.go run, setPlaylist argument parsing -/

/-- C9 (confirmed): a `currentIndex` that does not parse drops the whole
setPlaylist command; a `currentTime` that does not parse (the empty
string included: `ParseDuration "s"` fails) only warns, and the command
still runs with position 0 provided the playlist is non-empty and the
index is within bounds. -/
theorem handleSetPlaylist_spec (args : List (String × String)) :
    (goAtoi (argGet args "currentIndex") = none → handleSetPlaylist args = none) ∧
    (∀ index : Int, goAtoi (argGet args "currentIndex") = some index →
      goParseDuration (argGet args "currentTime" ++ "s") = none →
      0 ≤ index → index < ((goSplit (argGet args "videoIds") ',').length : Int) →
      handleSetPlaylist args =
        some ⟨goSplit (argGet args "videoIds") ',', index, 0, argGet args "listId"⟩) ∧
    goParseDuration ("" ++ "s") = none := by
  refine ⟨?_, ?_, by decide⟩
  · intro h
    simp [handleSetPlaylist, h]
  · intro index hidx htime h0 hlen
    have hcond : ¬(index < 0 ∨ (goSplit (argGet args "videoIds") ',').length = 0 ∨
        ((goSplit (argGet args "videoIds") ',').length : Int) ≤ index) := by
      omega
    simp only [handleSetPlaylist, hidx, htime, Option.getD_none, if_neg hcond]

/-- Witness for C9: an unparsable index drops the command; an empty
`currentTime` still executes it at position 0. -/
theorem handleSetPlaylist_spec_witness :
    handleSetPlaylist [("videoIds", "a,b"), ("currentIndex", "x"),
      ("currentTime", "3"), ("listId", "L")] = none ∧
    handleSetPlaylist [("videoIds", "a,b"), ("currentIndex", "1"),
      ("currentTime", ""), ("listId", "L")] =
      some ⟨["a", "b"], 1, 0, "L"⟩ := by
  constructor
  · exact (handleSetPlaylist_spec _).1 (by decide)
  · have h := (handleSetPlaylist_spec [("videoIds", "a,b"), ("currentIndex", "1"),
      ("currentTime", ""), ("listId", "L")]).2.1 1 (by decide) (by decide)
      (by decide) (by decide)
    rw [h]
    decide

/-! ## C5 — youtube.go sendMessages -/

/-- Summing the successful counts distributes over cons. -/
theorem sumCntOk_cons (p : OutPost) (ps : List OutPost) :
    sumCntOk (p :: ps) = (if p.ok then p.cnt else 0) + sumCntOk ps := by
  by_cases h : p.ok <;> simp [sumCntOk, List.filter_cons, h]

/-- Summing the successful counts distributes over append. -/
theorem sumCntOk_append (l1 l2 : List OutPost) :
    sumCntOk (l1 ++ l2) = sumCntOk l1 + sumCntOk l2 := by
  simp [sumCntOk, List.filter_append]

/-- Every POST a retry loop makes carries the `ofs` and `count` fields
it was built with. -/
theorem retryLoop_mem (outcomes : List Bool) : ∀ (retries ofs cnt : Nat)
    (p : OutPost), p ∈ (retryLoop retries outcomes ofs cnt).1 →
    p.ofs = ofs ∧ p.cnt = cnt := by
  induction outcomes with
  | nil => intro retries ofs cnt p hp; simp [retryLoop] at hp
  | cons outcome rest ih =>
    intro retries ofs cnt p hp
    by_cases h : outcome
    · simp [retryLoop, h] at hp
      subst hp
      exact ⟨rfl, rfl⟩
    · by_cases h2 : 25 < retries + 1
      · simp [retryLoop, h, h2] at hp
        subst hp
        exact ⟨rfl, rfl⟩
      · simp only [retryLoop, if_neg h, if_neg h2, Bool.false_eq_true,
          List.mem_cons] at hp
        rcases hp with hp | hp
        · subst hp; exact ⟨rfl, rfl⟩
        · exact ih (retries + 1) ofs cnt p hp

/-- Only the last attempt of a retry loop can succeed: any proper prefix
of its POSTs carries no successful message. -/
theorem retryLoop_split (outcomes : List Bool) : ∀ (retries ofs cnt : Nat)
    (pre suf : List OutPost) (p : OutPost),
    (retryLoop retries outcomes ofs cnt).1 = pre ++ p :: suf →
    sumCntOk pre = 0 := by
  induction outcomes with
  | nil =>
    intro retries ofs cnt pre suf p h
    simp only [retryLoop] at h
    exact absurd h.symm (List.append_ne_nil_of_right_ne_nil pre (by simp))
  | cons outcome rest ih =>
    intro retries ofs cnt pre suf p h
    by_cases ho : outcome
    · simp only [retryLoop, if_pos ho] at h
      cases pre with
      | nil => rfl
      | cons q qre =>
        simp only [List.cons_append, List.cons.injEq] at h
        exact absurd h.2.symm (List.append_ne_nil_of_right_ne_nil qre (by simp))
    · by_cases h2 : 25 < retries + 1
      · simp only [retryLoop, if_neg ho, if_pos h2] at h
        cases pre with
        | nil => rfl
        | cons q qre =>
          simp only [List.cons_append, List.cons.injEq] at h
          exact absurd h.2.symm (List.append_ne_nil_of_right_ne_nil qre (by simp))
      · simp only [retryLoop, if_neg ho, if_neg h2] at h
        cases pre with
        | nil => rfl
        | cons q qre =>
          simp only [List.cons_append, List.cons.injEq] at h
          rw [← h.1, sumCntOk_cons, ih (retries + 1) ofs cnt qre suf p h.2]
          simp

/-- The successful counts of one retry loop total the batch size when it
succeeded and zero when it gave up. -/
theorem retryLoop_sum (outcomes : List Bool) : ∀ (retries ofs cnt : Nat),
    sumCntOk (retryLoop retries outcomes ofs cnt).1 =
      (if (retryLoop retries outcomes ofs cnt).2 then cnt else 0) := by
  induction outcomes with
  | nil => intro retries ofs cnt; simp [retryLoop, sumCntOk]
  | cons outcome rest ih =>
    intro retries ofs cnt
    by_cases ho : outcome
    · simp [retryLoop, ho, sumCntOk]
    · by_cases h2 : 25 < retries + 1
      · simp [retryLoop, ho, h2, sumCntOk]
      · simp only [retryLoop, if_neg ho, if_neg h2]
        rw [sumCntOk_cons, ih (retries + 1) ofs cnt]
        simp

/-- A dead sender ignores every event. -/
theorem senderStep_dead (st : SenderState) (ev : SenderEvent)
    (ha : st.alive = false) : senderStep st ev = (st, []) := by
  simp [senderStep, ha]

/-- An enqueue appends to the queue and makes no POST. -/
theorem senderStep_enqueue (st : SenderState) (m : OutgoingMessage)
    (ha : st.alive = true) :
    senderStep st (SenderEvent.enqueue m) =
      ({ st with queued := st.queued ++ [m] }, []) := by
  simp [senderStep, ha]

/-- A flush POSTs exactly the attempts of its retry loop. -/
theorem senderStep_flush_posts (st : SenderState) (outcomes : List Bool)
    (ha : st.alive = true) :
    (senderStep st (SenderEvent.flush outcomes)).2 =
      (retryLoop 0 outcomes st.count st.queued.length).1 := by
  by_cases hs : (retryLoop 0 outcomes st.count st.queued.length).2 = true <;>
    simp [senderStep, ha, hs]

/-- One sender step advances the offset by exactly the messages its
successful POSTs carried. -/
theorem senderStep_count (st : SenderState) (ev : SenderEvent) :
    (senderStep st ev).1.count = st.count + sumCntOk (senderStep st ev).2 := by
  by_cases ha : st.alive = true
  · cases ev with
    | enqueue m => simp [senderStep_enqueue st m ha, sumCntOk]
    | flush outcomes =>
      rw [senderStep_flush_posts st outcomes ha, retryLoop_sum]
      by_cases hs : (retryLoop 0 outcomes st.count st.queued.length).2 = true <;>
        simp [senderStep, ha, hs]
  · have ha2 : st.alive = false := by simpa using ha
    simp [senderStep_dead st ev ha2, sumCntOk]

/-- Every POST of one sender step carries `ofs` equal to the offset at
the start of the step and `count` equal to the batch size, and no proper
prefix of the step's POSTs carries a successful message. -/
theorem senderStep_posts (st : SenderState) (ev : SenderEvent)
    (pre suf : List OutPost) (p : OutPost)
    (h : (senderStep st ev).2 = pre ++ p :: suf) :
    p.ofs = st.count ∧ p.cnt = st.queued.length ∧ sumCntOk pre = 0 := by
  by_cases ha : st.alive = true
  · cases ev with
    | enqueue m =>
      rw [senderStep_enqueue st m ha] at h
      exact absurd h.symm (List.append_ne_nil_of_right_ne_nil pre (by simp))
    | flush outcomes =>
      rw [senderStep_flush_posts st outcomes ha] at h
      have hm : p ∈ (retryLoop 0 outcomes st.count st.queued.length).1 := by
        rw [h]; simp
      obtain ⟨h1, h2⟩ := retryLoop_mem outcomes 0 st.count st.queued.length p hm
      exact ⟨h1, h2, retryLoop_split outcomes 0 st.count st.queued.length pre suf p h⟩
  · have ha2 : st.alive = false := by simpa using ha
    rw [senderStep_dead st ev ha2] at h
    exact absurd h.symm (List.append_ne_nil_of_right_ne_nil pre (by simp))

/-- Over a whole event trace, every POST's `ofs` field equals the offset
at the start plus the messages carried by the successful POSTs before
it. -/
theorem senderRun_ofs (evs : List SenderEvent) : ∀ (st : SenderState)
    (pre suf : List OutPost) (p : OutPost),
    (senderRun st evs).2 = pre ++ p :: suf →
    p.ofs = st.count + sumCntOk pre := by
  induction evs with
  | nil =>
    intro st pre suf p h
    simp only [senderRun] at h
    exact absurd h.symm (List.append_ne_nil_of_right_ne_nil pre (by simp))
  | cons ev evs ih =>
    intro st pre suf p h
    simp only [senderRun] at h
    rcases List.append_eq_append_iff.mp h with ⟨a2, hpre, hrp⟩ | ⟨c2, hsp, hps⟩
    · rw [ih (senderStep st ev).1 a2 suf p hrp, senderStep_count, hpre,
        sumCntOk_append]
      ring
    · cases c2 with
      | nil =>
        rw [List.append_nil] at hsp
        simp only [List.nil_append] at hps
        rw [ih (senderStep st ev).1 [] suf p hps.symm, senderStep_count, hsp]
        simp [sumCntOk]
      | cons q c3 =>
        simp only [List.cons_append, List.cons.injEq] at hps
        obtain ⟨hq, hsuf⟩ := hps
        subst hq
        obtain ⟨h1, hcnt, h3⟩ := senderStep_posts st ev pre c3 p hsp
        rw [h1, h3]
        simp

/-- C5 (confirmed): starting from a fresh sender (offset 0), the `ofs`
field of every batch POST equals the number of messages carried by the
successful POSTs before it (0 for the first batch) and its `count` field
equals the size of the queued batch; a successful flush advances the
offset by exactly that count and clears the queue, while a failed POST
leaves the offset (and queue) unchanged. -/
theorem sendMessages_ofs_spec :
    (∀ (evs : List SenderEvent) (pre suf : List OutPost) (p : OutPost),
      (senderRun senderInit evs).2 = pre ++ p :: suf → p.ofs = sumCntOk pre) ∧
    (∀ (st : SenderState) (outcomes : List Bool), st.alive = true →
      ∀ p, p ∈ (senderStep st (SenderEvent.flush outcomes)).2 →
        p.ofs = st.count ∧ p.cnt = st.queued.length) ∧
    (∀ (st : SenderState) (outcomes : List Bool), st.alive = true →
      (retryLoop 0 outcomes st.count st.queued.length).2 = true →
      (senderStep st (SenderEvent.flush outcomes)).1.queued = [] ∧
      (senderStep st (SenderEvent.flush outcomes)).1.count =
        st.count + st.queued.length) ∧
    (∀ (st : SenderState) (outcomes : List Bool), st.alive = true →
      (retryLoop 0 outcomes st.count st.queued.length).2 = false →
      (senderStep st (SenderEvent.flush outcomes)).1.count = st.count ∧
      (senderStep st (SenderEvent.flush outcomes)).1.queued = st.queued) := by
  refine ⟨?_, ?_, ?_, ?_⟩
  · intro evs pre suf p h
    have := senderRun_ofs evs senderInit pre suf p h
    simpa [senderInit] using this
  · intro st outcomes ha p hp
    simp only [senderStep, ha, if_neg (by simp : ¬ ¬ true = true)] at hp
    by_cases hs : (retryLoop 0 outcomes st.count st.queued.length).2
    · simp only [hs, if_pos] at hp
      exact retryLoop_mem outcomes 0 st.count st.queued.length p hp
    · simp only [hs, if_neg (by simp : ¬ false = true)] at hp
      exact retryLoop_mem outcomes 0 st.count st.queued.length p hp
  · intro st outcomes ha hs
    simp [senderStep, ha, hs]
  · intro st outcomes ha hs
    simp [senderStep, ha, hs]

/-- Witness for C5 on the trace: two messages, a flush whose first POST
fails and second succeeds, a third message, a successful flush. -/
theorem sendMessages_ofs_spec_witness :
    (senderRun senderInit
        [SenderEvent.enqueue ⟨"m1", []⟩, SenderEvent.enqueue ⟨"m2", []⟩,
         SenderEvent.flush [false, true], SenderEvent.enqueue ⟨"m3", []⟩,
         SenderEvent.flush [true]]).2 =
      [⟨0, 2, false⟩, ⟨0, 2, true⟩] ++ ⟨2, 1, true⟩ :: [] ∧
    (⟨2, 1, true⟩ : OutPost).ofs = sumCntOk [⟨0, 2, false⟩, ⟨0, 2, true⟩] := by
  refine ⟨by decide, ?_⟩
  exact sendMessages_ofs_spec.1
    [SenderEvent.enqueue ⟨"m1", []⟩, SenderEvent.enqueue ⟨"m2", []⟩,
     SenderEvent.flush [false, true], SenderEvent.enqueue ⟨"m3", []⟩,
     SenderEvent.flush [true]]
    [⟨0, 2, false⟩, ⟨0, 2, true⟩] [] ⟨2, 1, true⟩ (by decide)

end Plaincast
